import Mathlib

/-!
# A/B Testing Engine — shallow embedding

A shallow embedding of the A/B testing subsystem of the landing-page
generator (source: `src/core/ABTestingEngine.ts`, the analytics route in
the repository's route file, and the Prisma-backed store service).

Modelling conventions:
* JavaScript numbers are idealised as exact rationals (`ℚ`) where the
  source only counts, divides and compares, and as reals (`ℝ`) where the
  source calls `Math.sqrt`.  IEEE special values are modelled explicitly:
  `x / 0` for `x > 0` yields `+Infinity` (so any `>=` test against a finite
  bound succeeds) and `0 / 0` and `Math.sqrt` of a negative yield `NaN`
  (so every `>=` test fails); `NaN`-valued confidences are represented by
  `Option.none`.
* The engine's `Map` of active tests and the Prisma tables are modelled as
  association lists; `Map.get`/`findUnique` is first-match lookup and
  `Map.delete` removes every entry with the key (keys are unique in a
  `Map`, so this agrees with it observationally).
* Promises and thrown exceptions are modelled by returning
  `Except String α` together with the state as mutated up to the point of
  the throw.
-/

set_option maxRecDepth 10000

namespace ABTesting

/-- Event type of an A/B test event (source: the union type
`visit | conversion` in `trackEvent`). -/
inductive EventType where
  | visit
  | conversion
deriving DecidableEq

/-- One variant of an experiment (source: the `variants` element type of
`ABTestConfig`). -/
structure ABVariant where
  id : String
  weight : ℚ
  url : String
deriving DecidableEq

/-- Experiment configuration (source: `ABTestConfig`). -/
structure ABTestConfig where
  projectId : String
  variants : List ABVariant
  metrics : List String
  duration : ℕ
deriving DecidableEq

/-- A persisted A/B test event (source: the record passed to
`DatabaseService.trackABTestEvent`). -/
structure ABEvent where
  testId : String
  variantId : String
  eventType : EventType
  metric : Option String
  timestamp : ℕ
deriving DecidableEq

/-- Per-variant result row (source: interface `TestResults`).  The
`confidence` field is `none` when the JavaScript computation produces
`NaN`. -/
structure TestResults where
  variantId : String
  conversions : ℕ
  visitors : ℕ
  conversionRate : ℚ
  confidence : Option ℝ
  isWinner : Bool

/-- The A/B test record row of the store (source: the fields of the
`aBTest` table written by `updateABTest` in `endTest`). -/
structure ABTestRecord where
  status : String
  winner : Option String
  endDate : Option ℕ
deriving DecidableEq

/-- The external store: the `aBTestEvent` table (append-only) and the
`aBTest` table. -/
structure StoreState where
  events : List ABEvent
  tests : List (String × ABTestRecord)
deriving DecidableEq

/-- State of one `ABTestingEngine` instance: the in-memory
`activeTests` map plus the external store it talks to. -/
structure EngineState where
  activeTests : List (String × ABTestConfig)
  store : StoreState
deriving DecidableEq

/-- First-match association-list lookup, the model of `Map.get` and of
Prisma's `findUnique`/`update` row lookup. -/
def alookup {α : Type} (key : String) : List (String × α) → Option α
  | [] => none
  | (k, v) :: rest => if k = key then some v else alookup key rest

/-- `Math.sqrt` on a JavaScript number: `NaN` (here `none`) on negative
input, the real square root otherwise. -/
noncomputable def jsSqrt (x : ℝ) : Option ℝ :=
  if 0 ≤ x then some (Real.sqrt x) else none

/-- Source: private `calculateConfidence(conversions, visitors)`.
Returns `0` for fewer than 30 visitors; otherwise
`Math.min(99, Math.max(0, (1 - 1.96 * Math.sqrt(p * (1-p) / visitors)) * 100))`
with `p = conversions / visitors`.  When `conversions > visitors` the
radicand is negative, `Math.sqrt` yields `NaN`, and the whole expression
is `NaN` (modelled as `none`). -/
noncomputable def calculateConfidence (conversions visitors : ℕ) : Option ℝ :=
  if visitors < 30 then some 0
  else
    let p : ℝ := (conversions : ℝ) / (visitors : ℝ)
    match jsSqrt (p * (1 - p) / (visitors : ℝ)) with
    | none => none
    | some s =>
      let margin : ℝ := 1.96 * s
      some (min 99 (max 0 ((1 - margin) * 100)))

/-- The confidence formula as the specification words it: `0` when
`visitors < 30`, otherwise `clamp(0, 99, (1 - z * sqrt(p * (1-p) / visitors)) * 100)`
with `p` the variant's conversion rate and `z = 1.96`. -/
noncomputable def specConfidence (p : ℚ) (visitors : ℕ) : Option ℝ :=
  if visitors < 30 then some 0
  else
    match jsSqrt ((p : ℝ) * (1 - (p : ℝ)) / (visitors : ℝ)) with
    | none => none
    | some s => some (min 99 (max 0 ((1 - 1.96 * s) * 100)))

/-- The significance test `improvement >= 0.05` of `determineWinner`,
where `improvement = (best - second) / second` is computed on JavaScript
numbers: when `second = 0` the division yields `+Infinity` if
`best > 0` (test passes) and `NaN` if `best = 0` (test fails). -/
def improvementSig (best second : ℚ) : Prop :=
  if second = 0 then 0 < best else 1 / 20 ≤ (best - second) / second

/-- The test `best.confidence >= 95` on a possibly-`NaN` confidence. -/
def confGE95 : Option ℝ → Prop
  | some c => 95 ≤ c
  | none => False

/-- Stable insertion (descending by `conversionRate`) used to model the
stable `Array.prototype.sort` with comparator
`(a, b) => b.conversionRate - a.conversionRate`: an element moves past
exactly those with a strictly larger rate, so original order is kept
among equal rates. -/
def insertByRate (r : TestResults) : List TestResults → List TestResults
  | [] => [r]
  | x :: xs =>
    if r.conversionRate < x.conversionRate then x :: insertByRate r xs
    else r :: x :: xs

/-- The sorted copy `[...results].sort((a, b) => b.conversionRate - a.conversionRate)`. -/
def sortByRateDesc : List TestResults → List TestResults
  | [] => []
  | x :: xs => insertByRate x (sortByRateDesc xs)

open scoped Classical

/-- Source: private `determineWinner(results)`.  No winner with fewer
than two results or any variant under 100 visitors; otherwise the top of
the rate-sorted list wins iff the improvement and confidence tests both
pass. -/
noncomputable def determineWinner (results : List TestResults) : Option TestResults :=
  if results.length < 2 then none
  else if !(results.all fun r => decide (100 ≤ r.visitors)) then none
  else
    match sortByRateDesc results with
    | best :: second :: _ =>
      if improvementSig best.conversionRate second.conversionRate ∧ confGE95 best.confidence then
        some best
      else none
    | _ => none

/-- One iteration of the per-variant statistics loop of `getResults`:
filter the test's events down to the variant, count visits and
conversions, and derive rate and confidence (`isWinner` starts `false`,
"determined after all results calculated"). -/
noncomputable def variantResult (events : List ABEvent) (variant : ABVariant) : TestResults :=
  let variantEvents := events.filter fun e => decide (e.variantId = variant.id)
  let visitors := (variantEvents.filter fun e => decide (e.eventType = EventType.visit)).length
  let conversions := (variantEvents.filter fun e => decide (e.eventType = EventType.conversion)).length
  { variantId := variant.id
    conversions := conversions
    visitors := visitors
    conversionRate := if 0 < visitors then (conversions : ℚ) / (visitors : ℚ) else 0
    confidence := calculateConfidence conversions visitors
    isWinner := false }

/-- The per-variant statistics loop of `getResults`, before winner
marking: one row per declared variant, in declaration order. -/
noncomputable def computeResults (test : ABTestConfig) (events : List ABEvent) : List TestResults :=
  test.variants.map (variantResult events)

/-- The in-place mutation `winner.isWinner = true` of `getResults`: the
mutated object is the row whose `variantId` is the winner's (variant ids
are unique within an experiment). -/
def markWinner (w r : TestResults) : TestResults :=
  if r.variantId = w.variantId then { r with isWinner := true } else r

/-- Source: the body of `getResults` after the registry lookup: compute
the per-variant rows, then set `isWinner := true` on the winner object. -/
noncomputable def getResults (test : ABTestConfig) (events : List ABEvent) : List TestResults :=
  let results := computeResults test events
  match determineWinner results with
  | none => results
  | some w => results.map (markWinner w)

/-- `getABTestEvents(testId)`: select the event rows of one test from the
store (the source orders by timestamp descending; every consumer only
counts rows, which is order-insensitive, so the selection order is left
as stored). -/
def getABTestEvents (testId : String) (events : List ABEvent) : List ABEvent :=
  events.filter fun e => decide (e.testId = testId)

/-- `DatabaseService.trackABTestEvent`: unconditional row insert into the
append-only event table. -/
def trackABTestEvent (e : ABEvent) (store : StoreState) : StoreState :=
  { store with events := store.events ++ [e] }

/-- `DatabaseService.updateABTest`: Prisma `update` — replaces the row's
updated fields when the id exists, throws a record-not-found error
otherwise. -/
def updateABTest (testId : String) (upd : ABTestRecord) (store : StoreState) :
    Except String StoreState :=
  match alookup testId store.tests with
  | none => .error "Record to update not found."
  | some _ =>
    .ok { store with
          tests := store.tests.map fun p => if p.1 = testId then (p.1, upd) else p }

/-- What `setup` returns to the caller.  The tracking snippet is a
generated script string; it is represented by the data the script embeds
(its behaviour is modelled by `snippetOnLoad` / `snippetTrackConversion`
below). -/
structure TrackingSnippet where
  testId : String
  variants : List ABVariant
deriving DecidableEq

/-- Caller-facing result of `setup`. -/
structure SetupResult where
  testId : String
  trackingCode : TrackingSnippet
  dashboardUrl : String
deriving DecidableEq

/-- Source: private `generateTrackingCode(testId, config)` — emits the
client script embedding the test id and the variant list. -/
def generateTrackingCode (testId : String) (config : ABTestConfig) : TrackingSnippet :=
  { testId := testId, variants := config.variants }

/-- Source: `setup(config)`.  `uuidv4()` is modelled by the explicit
`testId` argument and `process.env.BASE_URL` by `baseUrl`.  The source
performs no validation of `config` and no store call: it only records the
config in the in-memory map, builds the snippet and returns. -/
def setup (baseUrl testId : String) (config : ABTestConfig) (s : EngineState) :
    SetupResult × EngineState :=
  ({ testId := testId
     trackingCode := generateTrackingCode testId config
     dashboardUrl := baseUrl ++ "/ab-testing/" ++ testId },
   { s with activeTests := (testId, config) :: s.activeTests })

/-- Source: `trackEvent(testId, variantId, eventType, metric)`.  No
registry lookup is performed: the event is appended to the store
unconditionally and the call always succeeds. -/
def trackEvent (testId variantId : String) (eventType : EventType)
    (metric : Option String) (now : ℕ) (s : EngineState) :
    Except String Unit × EngineState :=
  (.ok (),
   { s with store := trackABTestEvent ⟨testId, variantId, eventType, metric, now⟩ s.store })

/-- Source: `getResults(testId)` including the registry lookup: throws
`Test not found: <id>` when the id is not in `activeTests`, otherwise
computes the result rows from the test's stored events. -/
noncomputable def getResultsM (testId : String) (s : EngineState) :
    Except String (List TestResults) × EngineState :=
  match alookup testId s.activeTests with
  | none => (.error ("Test not found: " ++ testId), s)
  | some test => (.ok (getResults test (getABTestEvents testId s.store.events)), s)

/-- Source: `endTest(testId)`: compute final results (throws if the id is
unknown to the registry — this is the first statement, so nothing is
written in that case), persist `status := completed`, the winner id and
the end date, then delete the registry entry. -/
noncomputable def endTest (testId : String) (now : ℕ) (s : EngineState) :
    Except String (Option String × List TestResults) × EngineState :=
  match getResultsM testId s with
  | (.error e, s') => (.error e, s')
  | (.ok results, s') =>
    let winner := (results.find? fun r => r.isWinner).map (·.variantId)
    match updateABTest testId { status := "completed", winner := winner, endDate := some now } s'.store with
    | .error e => (.error e, s')
    | .ok store' =>
      (.ok (winner, results),
       { activeTests := s'.activeTests.filter fun p => decide (¬ p.1 = testId)
         store := store' })

/-- One POST body sent by the generated snippet to `/api/ab-testing/track`. -/
structure TrackPost where
  testId : String
  variant : String
  metric : String
deriving DecidableEq

/-- The snippet's `selectWeightedVariant()`: walk the embedded variants
accumulating weights and return the first whose cumulative weight
exceeds the drawn `random`; fall back to the first variant's id (`none`
models the crash on an empty variant list). -/
def selectWeightedVariant (variants : List ABVariant) (random : ℚ) : Option String :=
  go variants 0
where
  go : List ABVariant → ℚ → Option String
    | [], _ => (variants.head?).map (·.id)
    | v :: rest, cumulative =>
      if random < cumulative + v.weight then some v.id else go rest (cumulative + v.weight)

/-- The snippet's `getVariant()`: reuse the session-stored assignment if
present, otherwise select (and store) a weighted variant. -/
def snippetGetVariant (sn : TrackingSnippet) (stored : Option String) (draw : ℚ) :
    Option String :=
  match stored with
  | some v => some v
  | none => selectWeightedVariant sn.variants draw

/-- Effect of running the generated script on page load. -/
structure OnLoadEffect where
  assigned : Option String
  posts : List TrackPost

/-- What the generated script does when the page loads (source: the
script body emitted by `generateTrackingCode`): it assigns a sticky
variant and adds a CSS class `ab-variant-<id>` to the body.  It performs
no network call — the only `fetch` in the script is inside
`trackConversion`, so the list of tracking posts fired on load is empty. -/
def snippetOnLoad (sn : TrackingSnippet) (stored : Option String) (draw : ℚ) :
    OnLoadEffect :=
  { assigned := snippetGetVariant sn stored draw, posts := [] }

/-- The snippet's global `trackConversion(metric)`: posts the test id,
the sticky variant and the metric to `/api/ab-testing/track`. -/
def snippetTrackConversion (sn : TrackingSnippet) (stored : Option String)
    (draw : ℚ) (metric : String) : TrackPost :=
  { testId := sn.testId
    variant := (snippetGetVariant sn stored draw).getD ""
    metric := metric }

/-- The `/ab-testing/track` route handler (analytics router): forwards
the posted body to `trackEvent` with the event type hard-coded to
`conversion`. -/
def abTestingTrackRoute (body : TrackPost) (now : ℕ) (s : EngineState) :
    Except String Unit × EngineState :=
  trackEvent body.testId body.variant EventType.conversion (some body.metric) now s

/-- Ingest, in order, a list of posts through the tracking route (used to
state what reaches the store along the generated-snippet path). -/
def ingestPosts (posts : List TrackPost) (now : ℕ) (s : EngineState) : EngineState :=
  posts.foldl (fun st body => (abTestingTrackRoute body now st).2) s

/-! ### Concrete fixtures used in the theorems below -/

/-- A fresh engine instance talking to an empty store. -/
def s0 : EngineState := ⟨[], ⟨[], []⟩⟩

/-- Variant `A` with half the traffic. -/
def varA : ABVariant := ⟨"A", 1/2, "urlA"⟩

/-- Variant `B` with half the traffic. -/
def varB : ABVariant := ⟨"B", 1/2, "urlB"⟩

/-- A two-variant experiment configuration. -/
def twoVarTest : ABTestConfig := ⟨"proj", [varA, varB], ["conversion"], 30⟩

/-- A one-variant experiment configuration. -/
def oneVarTest : ABTestConfig := ⟨"proj", [varA], ["conversion"], 30⟩

/-- A configuration with an empty variant list. -/
def emptyCfg : ABTestConfig := ⟨"proj", [], ["conversion"], 30⟩

/-- A `visit` event for variant `A` of test `t1`. -/
def visitA : ABEvent := ⟨"t1", "A", .visit, none, 1⟩

/-- A `conversion` event for variant `A` of test `t1`. -/
def convA : ABEvent := ⟨"t1", "A", .conversion, some "conversion", 2⟩

/-- A `visit` event for variant `B` of test `t1`. -/
def visitB : ABEvent := ⟨"t1", "B", .visit, none, 3⟩

/-- Event log for the zero-baseline scenario: variant `A` has 100 visits
and 100 conversions (rate 1), variant `B` has 100 visits and no
conversion (rate 0). -/
def zeroBaselineEvents : List ABEvent :=
  List.replicate 100 visitA ++ List.replicate 100 convA ++ List.replicate 100 visitB

/-- Event log with exactly 50 visits per variant and no conversions. -/
def fiftyEvents : List ABEvent :=
  List.replicate 50 visitA ++ List.replicate 50 visitB

/-- Result row of variant `A` under `zeroBaselineEvents`, before winner
marking. -/
def resultA : TestResults := ⟨"A", 100, 100, 1, some 99, false⟩

/-- Result row of variant `B` under `zeroBaselineEvents`. -/
def resultB : TestResults := ⟨"B", 0, 100, 0, some 99, false⟩

/-- Result row of variant `A` under `fiftyEvents`. -/
def fiftyA : TestResults := ⟨"A", 0, 50, 0, some 99, false⟩

/-- Result row of variant `B` under `fiftyEvents`. -/
def fiftyB : TestResults := ⟨"B", 0, 50, 0, some 99, false⟩

/-- Result row of variant `A` with no events at all. -/
def r0A : TestResults := ⟨"A", 0, 0, 0, some 0, false⟩

/-- The snippet generated for test `t1` over `twoVarTest`. -/
def snippetT1 : TrackingSnippet := generateTrackingCode "t1" twoVarTest

/-- Engine state with `t1` registered over `oneVarTest` and one visit in
the store. -/
def s8 : EngineState := ⟨[("t1", oneVarTest)], ⟨[visitA], []⟩⟩

/-- Engine state with `t1` registered and an `active` store record (as an
external writer would have created it). -/
def s9 : EngineState := ⟨[("t1", oneVarTest)], ⟨[], [("t1", ⟨"active", none, none⟩)]⟩⟩

/-- The state after a successful `endTest "t1"` at time 5 from `s9`. -/
def s9' : EngineState := ⟨[], ⟨[], [("t1", ⟨"completed", none, some 5⟩)]⟩⟩

/-! ### General lemmas about the embedding -/

theorem length_insertByRate (r : TestResults) (l : List TestResults) :
    (insertByRate r l).length = l.length + 1 := by
  induction l with
  | nil => rfl
  | cons x xs ih =>
    simp only [insertByRate]
    split
    · simp [ih]
    · simp

theorem mem_insertByRate {x r : TestResults} {l : List TestResults} :
    x ∈ insertByRate r l ↔ x = r ∨ x ∈ l := by
  induction l with
  | nil => simp [insertByRate]
  | cons y ys ih =>
    simp only [insertByRate]
    split
    · simp only [List.mem_cons, ih]
      tauto
    · simp only [List.mem_cons]

theorem length_sortByRateDesc (l : List TestResults) :
    (sortByRateDesc l).length = l.length := by
  induction l with
  | nil => rfl
  | cons x xs ih => simp [sortByRateDesc, length_insertByRate, ih]

theorem mem_sortByRateDesc {x : TestResults} {l : List TestResults} :
    x ∈ sortByRateDesc l ↔ x ∈ l := by
  induction l with
  | nil => simp [sortByRateDesc]
  | cons y ys ih => simp [sortByRateDesc, mem_insertByRate, ih]

theorem markWinner_variantId (w r : TestResults) :
    (markWinner w r).variantId = r.variantId := by
  unfold markWinner; split <;> rfl

theorem markWinner_visitors (w r : TestResults) :
    (markWinner w r).visitors = r.visitors := by
  unfold markWinner; split <;> rfl

theorem markWinner_conversions (w r : TestResults) :
    (markWinner w r).conversions = r.conversions := by
  unfold markWinner; split <;> rfl

theorem markWinner_conversionRate (w r : TestResults) :
    (markWinner w r).conversionRate = r.conversionRate := by
  unfold markWinner; split <;> rfl

theorem markWinner_confidence (w r : TestResults) :
    (markWinner w r).confidence = r.confidence := by
  unfold markWinner; split <;> rfl

theorem determineWinner_of_short {results : List TestResults} (h : results.length < 2) :
    determineWinner results = none := by
  unfold determineWinner
  rw [if_pos h]

theorem determineWinner_of_small {results : List TestResults} {r : TestResults}
    (hr : r ∈ results) (hv : r.visitors < 100) :
    determineWinner results = none := by
  unfold determineWinner
  by_cases h1 : results.length < 2
  · rw [if_pos h1]
  rw [if_neg h1]
  have hall : (results.all fun s => decide (100 ≤ s.visitors)) = false := by
    cases hb : results.all fun s => decide (100 ≤ s.visitors)
    · rfl
    · exact absurd (of_decide_eq_true (List.all_eq_true.mp hb r hr)) (by omega)
  rw [hall]
  rfl

theorem determineWinner_some {results : List TestResults} {w : TestResults}
    (h : determineWinner results = some w) :
    2 ≤ results.length ∧ (∀ r ∈ results, 100 ≤ r.visitors) ∧ w ∈ results := by
  unfold determineWinner at h
  by_cases h1 : results.length < 2
  · rw [if_pos h1] at h; cases h
  rw [if_neg h1] at h
  cases hall : results.all fun s => decide (100 ≤ s.visitors) with
  | false => rw [hall] at h; cases h
  | true =>
    rw [hall] at h
    simp only [Bool.not_true, Bool.false_eq_true, if_false] at h
    have hvis : ∀ r ∈ results, 100 ≤ r.visitors := fun r hr =>
      of_decide_eq_true (List.all_eq_true.mp hall r hr)
    refine ⟨by omega, hvis, ?_⟩
    rcases hs : sortByRateDesc results with _ | ⟨best, _ | ⟨second, rest⟩⟩ <;>
        rw [hs] at h <;> dsimp only at h
    · cases h
    · cases h
    · split_ifs at h with hc
      cases h
      exact mem_sortByRateDesc.mp (hs ▸ List.mem_cons_self _ _)

theorem calculateConfidence_lt30 {c v : ℕ} (h : v < 30) :
    calculateConfidence c v = some 0 := by
  unfold calculateConfidence
  rw [if_pos h]

theorem calculateConfidence_zeroConv {v : ℕ} (h : 30 ≤ v) :
    calculateConfidence 0 v = some 99 := by
  have h0 : ((0 : ℕ) : ℝ) / (v : ℝ) * (1 - ((0 : ℕ) : ℝ) / (v : ℝ)) / (v : ℝ) = 0 := by
    norm_num
  simp only [calculateConfidence, if_neg (show ¬ v < 30 by omega), h0, jsSqrt,
    if_pos le_rfl, Real.sqrt_zero]
  norm_num

theorem calculateConfidence_allConv {v : ℕ} (h : 30 ≤ v) :
    calculateConfidence v v = some 99 := by
  have hv : (v : ℝ) ≠ 0 := Nat.cast_ne_zero.mpr (by omega)
  have h0 : (v : ℝ) / (v : ℝ) * (1 - (v : ℝ) / (v : ℝ)) / (v : ℝ) = 0 := by
    rw [div_self hv]; ring
  simp only [calculateConfidence, if_neg (show ¬ v < 30 by omega), h0, jsSqrt,
    if_pos le_rfl, Real.sqrt_zero]
  norm_num

theorem calculateConfidence_eq_spec (c v : ℕ) :
    calculateConfidence c v
      = specConfidence (if 0 < v then (c : ℚ) / (v : ℚ) else 0) v := by
  by_cases h : v < 30
  · simp [calculateConfidence, specConfidence, h]
  · have hv : 0 < v := by omega
    have hcast : (((c : ℚ) / (v : ℚ) : ℚ) : ℝ) = (c : ℝ) / (v : ℝ) := by
      push_cast
      ring
    simp only [calculateConfidence, specConfidence, if_neg h, if_pos hv, hcast]

/-! ### Evaluation of the fixtures -/

theorem variantResult_zeroBaseline_A :
    variantResult zeroBaselineEvents varA = resultA := by
  simp +decide [variantResult, zeroBaselineEvents, varA, visitA, convA, visitB,
    List.filter_append, List.filter_replicate, resultA, calculateConfidence_allConv]

theorem variantResult_zeroBaseline_B :
    variantResult zeroBaselineEvents varB = resultB := by
  simp +decide [variantResult, zeroBaselineEvents, varB, visitA, convA, visitB,
    List.filter_append, List.filter_replicate, resultB, calculateConfidence_zeroConv]

theorem computeResults_zeroBaseline :
    computeResults twoVarTest zeroBaselineEvents = [resultA, resultB] := by
  simp [computeResults, twoVarTest, variantResult_zeroBaseline_A, variantResult_zeroBaseline_B]

theorem sort_zeroBaseline : sortByRateDesc [resultA, resultB] = [resultA, resultB] := by
  simp +decide [sortByRateDesc, insertByRate, resultA, resultB]

theorem determineWinner_zeroBaseline :
    determineWinner [resultA, resultB] = some resultA := by
  unfold determineWinner
  rw [if_neg (by simp)]
  have hall : ([resultA, resultB].all fun r => decide (100 ≤ r.visitors)) = true := by decide
  rw [hall]
  simp only [Bool.not_true, Bool.false_eq_true, if_false]
  rw [sort_zeroBaseline]
  dsimp only
  have h1 : improvementSig resultA.conversionRate resultB.conversionRate := by
    simp [improvementSig, resultA, resultB]
  have h2 : confGE95 resultA.confidence := by
    simp only [resultA, confGE95]
    norm_num
  rw [if_pos ⟨h1, h2⟩]

theorem getResults_zeroBaseline :
    getResults twoVarTest zeroBaselineEvents = [{ resultA with isWinner := true }, resultB] := by
  simp only [getResults, computeResults_zeroBaseline, determineWinner_zeroBaseline,
    List.map_cons, List.map_nil, markWinner]
  simp +decide [resultA, resultB]

theorem variantResult_fifty_A : variantResult fiftyEvents varA = fiftyA := by
  simp +decide [variantResult, fiftyEvents, varA, visitA, visitB,
    List.filter_append, List.filter_replicate, fiftyA, calculateConfidence_zeroConv]

theorem variantResult_fifty_B : variantResult fiftyEvents varB = fiftyB := by
  simp +decide [variantResult, fiftyEvents, varB, visitA, visitB,
    List.filter_append, List.filter_replicate, fiftyB, calculateConfidence_zeroConv]

theorem computeResults_fifty :
    computeResults twoVarTest fiftyEvents = [fiftyA, fiftyB] := by
  simp [computeResults, twoVarTest, variantResult_fifty_A, variantResult_fifty_B]

theorem getResults_fifty : getResults twoVarTest fiftyEvents = [fiftyA, fiftyB] := by
  have hnone : determineWinner [fiftyA, fiftyB] = none :=
    determineWinner_of_small (List.mem_cons_self _ _) (by simp [fiftyA])
  simp [getResults, computeResults_fifty, hnone]

theorem variantResult_empty_A : variantResult [] varA = r0A := by
  simp +decide [variantResult, varA, r0A, calculateConfidence_lt30]

theorem computeResults_oneVar : computeResults oneVarTest [] = [r0A] := by
  simp [computeResults, oneVarTest, variantResult_empty_A]

theorem getResults_oneVar : getResults oneVarTest [] = [r0A] := by
  have hnone : determineWinner [r0A] = none := determineWinner_of_short (by simp)
  simp [getResults, computeResults_oneVar, hnone]

/-! ### Claim C1 — zero-baseline winner determination -/

/-- C1, counterexample: under `zeroBaselineEvents` the second-best
variant's conversion rate is 0, the best rate is positive, every variant
has 100 visitors and the best confidence passes the 95 threshold, yet
`getResults` returns variant `A` with `isWinner = true` — refuting the
claim that no winner is declared against a zero baseline. -/
theorem C1_counterexample :
    sortByRateDesc (computeResults twoVarTest zeroBaselineEvents) = [resultA, resultB] ∧
    resultB.conversionRate = 0 ∧
    0 < resultA.conversionRate ∧
    (∀ r ∈ computeResults twoVarTest zeroBaselineEvents, 100 ≤ r.visitors) ∧
    confGE95 resultA.confidence ∧
    getResults twoVarTest zeroBaselineEvents = [{ resultA with isWinner := true }, resultB] := by
  refine ⟨by rw [computeResults_zeroBaseline, sort_zeroBaseline], rfl, by norm_num [resultA],
    ?_, ?_, getResults_zeroBaseline⟩
  · rw [computeResults_zeroBaseline]
    decide
  · simp only [resultA, confGE95]
    norm_num

/-- C1 (amended): when the second-highest conversion rate is 0 but the
best rate is positive, the improvement test succeeds (JavaScript division
by zero yields `+Infinity`, which passes `>= 0.05`), so with every
variant at ≥ 100 visitors and the best confidence ≥ 95 the best variant
IS declared winner and `getResults` returns a row with
`isWinner = true`. -/
theorem C1_zero_baseline_declares_winner
    (test : ABTestConfig) (events : List ABEvent)
    (best second : TestResults) (rest : List TestResults)
    (hsort : sortByRateDesc (computeResults test events) = best :: second :: rest)
    (hsecond : second.conversionRate = 0)
    (hbest : 0 < best.conversionRate)
    (hvis : ∀ r ∈ computeResults test events, 100 ≤ r.visitors)
    (hconf : confGE95 best.confidence) :
    determineWinner (computeResults test events) = some best ∧
      ∃ r ∈ getResults test events, r.isWinner = true := by
  have hlen : (computeResults test events).length = rest.length + 2 := by
    have hl := length_sortByRateDesc (computeResults test events)
    rw [hsort] at hl
    simpa using hl.symm
  have hw : determineWinner (computeResults test events) = some best := by
    unfold determineWinner
    rw [if_neg (by omega)]
    have hall : ((computeResults test events).all fun r => decide (100 ≤ r.visitors)) = true :=
      List.all_eq_true.mpr fun r hr => decide_eq_true (hvis r hr)
    rw [hall]
    simp only [Bool.not_true, Bool.false_eq_true, if_false]
    rw [hsort]
    dsimp only
    have himp : improvementSig best.conversionRate second.conversionRate := by
      unfold improvementSig
      rw [hsecond, if_pos rfl]
      exact hbest
    rw [if_pos ⟨himp, hconf⟩]
  have hmem : best ∈ computeResults test events :=
    mem_sortByRateDesc.mp (hsort ▸ List.mem_cons_self _ _)
  refine ⟨hw, markWinner best best, ?_, ?_⟩
  · simp only [getResults, hw]
    exact List.mem_map_of_mem _ hmem
  · unfold markWinner
    rw [if_pos rfl]

/-- C1, witness: the amended theorem applied to the zero-baseline
fixture. -/
theorem C1_zero_baseline_declares_winner_witness :
    determineWinner (computeResults twoVarTest zeroBaselineEvents) = some resultA ∧
      ∃ r ∈ getResults twoVarTest zeroBaselineEvents, r.isWinner = true :=
  C1_zero_baseline_declares_winner twoVarTest zeroBaselineEvents resultA resultB []
    (by rw [computeResults_zeroBaseline, sort_zeroBaseline])
    rfl
    (by norm_num [resultA])
    (by rw [computeResults_zeroBaseline]; decide)
    (by simp only [resultA, confGE95]; norm_num)

/-! ### Claim C2 — event tracking with an unknown experiment id -/

/-- C2, counterexample: with an empty registry, `trackEvent` on an
unknown id succeeds and appends the event to the store — refuting the
claim that it fails with `NotFoundError` and appends nothing. -/
theorem C2_counterexample :
    alookup "missing" s0.activeTests = none ∧
    trackEvent "missing" "A" EventType.visit none 0 s0
      = (.ok (), ⟨[], ⟨[⟨"missing", "A", EventType.visit, none, 0⟩], []⟩⟩) :=
  ⟨rfl, rfl⟩

/-- C2 (amended): `trackEvent` performs no registry check: for every
state and an experiment id absent from the registry, the call succeeds
and appends exactly the one event to the store, leaving the registry
unchanged. -/
theorem C2_track_unknown_id_appends
    (s : EngineState) (testId variantId : String) (ty : EventType)
    (metric : Option String) (now : ℕ)
    (_hmiss : alookup testId s.activeTests = none) :
    (trackEvent testId variantId ty metric now s).1 = .ok () ∧
    (trackEvent testId variantId ty metric now s).2.store.events
      = s.store.events ++ [⟨testId, variantId, ty, metric, now⟩] ∧
    (trackEvent testId variantId ty metric now s).2.activeTests = s.activeTests :=
  ⟨rfl, rfl, rfl⟩

/-- C2, witness: the amended theorem applied to a fresh engine state and
the id `missing`. -/
theorem C2_track_unknown_id_appends_witness :
    (trackEvent "missing" "A" EventType.visit none 0 s0).1 = .ok () ∧
    (trackEvent "missing" "A" EventType.visit none 0 s0).2.store.events
      = s0.store.events ++ [⟨"missing", "A", EventType.visit, none, 0⟩] ∧
    (trackEvent "missing" "A" EventType.visit none 0 s0).2.activeTests = s0.activeTests :=
  C2_track_unknown_id_appends s0 "missing" "A" EventType.visit none 0 rfl

/-! ### Claim C3 — visit events along the generated-snippet path -/

/-- C3, counterexample: on load the generated snippet assigns a variant
but fires no tracking post at all, so ingesting the load-time posts
leaves the store without any `visit` event — refuting the claim that one
`visit` event per session is recorded for the assigned variant. -/
theorem C3_counterexample :
    (snippetOnLoad snippetT1 none (1/4)).assigned = some "A" ∧
    (snippetOnLoad snippetT1 none (1/4)).posts = [] ∧
    (ingestPosts (snippetOnLoad snippetT1 none (1/4)).posts 0 s0).store.events.filter
        (fun e => decide (e.eventType = EventType.visit)) = [] := by
  refine ⟨?_, rfl, rfl⟩
  norm_num [snippetOnLoad, snippetGetVariant, snippetT1, generateTrackingCode, twoVarTest,
    selectWeightedVariant, selectWeightedVariant.go, varA, varB]

/-- C3 (amended): the snippet fires no event on load (it only assigns
the sticky variant and marks the page), and every event ingested through
the `/ab-testing/track` route is recorded with type `conversion`; visit
events are never ingested along the produced-artifact tracking path. -/
theorem C3_no_visit_events_on_path :
    (∀ (sn : TrackingSnippet) (stored : Option String) (draw : ℚ),
      (snippetOnLoad sn stored draw).posts = []) ∧
    (∀ (body : TrackPost) (now : ℕ) (s : EngineState),
      (abTestingTrackRoute body now s).1 = .ok () ∧
      (abTestingTrackRoute body now s).2.store.events
        = s.store.events ++ [⟨body.testId, body.variant, EventType.conversion, some body.metric, now⟩]) :=
  ⟨fun _ _ _ => rfl, fun _ _ _ => ⟨rfl, rfl⟩⟩

/-! ### Claim C4 — creation with an empty variants list -/

/-- C4, counterexample: `setup` with an empty variants list succeeds: it
returns the full `{testId, trackingCode, dashboardUrl}` record and adds
the experiment to the registry — refuting the claim that it fails with
`ValidationError` and registers nothing.  (No store write occurs, but
only because `setup` never writes the store at all.) -/
theorem C4_counterexample :
    emptyCfg.variants = [] ∧
    (setup "https://base" "t1" emptyCfg s0).1
      = ⟨"t1", ⟨"t1", []⟩, "https://base/ab-testing/t1"⟩ ∧
    alookup "t1" (setup "https://base" "t1" emptyCfg s0).2.activeTests = some emptyCfg ∧
    (setup "https://base" "t1" emptyCfg s0).2.store = s0.store :=
  ⟨rfl, rfl, rfl, rfl⟩

/-- C4 (amended): `setup` performs no validation: with an empty variants
list it still succeeds — returning the `{testId, trackingCode,
dashboardUrl}` record and adding the config to the registry — and the
store is untouched (as it is for every config, since `setup` performs no
store write). -/
theorem C4_empty_variants_accepted
    (baseUrl testId : String) (config : ABTestConfig) (s : EngineState)
    (hempty : config.variants = []) :
    (setup baseUrl testId config s).1.testId = testId ∧
    (setup baseUrl testId config s).1.trackingCode = ⟨testId, []⟩ ∧
    (setup baseUrl testId config s).1.dashboardUrl = baseUrl ++ "/ab-testing/" ++ testId ∧
    alookup testId (setup baseUrl testId config s).2.activeTests = some config ∧
    (setup baseUrl testId config s).2.store = s.store := by
  refine ⟨rfl, ?_, rfl, ?_, rfl⟩
  · simp [setup, generateTrackingCode, hempty]
  · simp [setup, alookup]

/-- C4, witness: the amended theorem applied to the empty-variants
configuration. -/
theorem C4_empty_variants_accepted_witness :
    (setup "https://base" "t1" emptyCfg s0).1.testId = "t1" ∧
    (setup "https://base" "t1" emptyCfg s0).1.trackingCode = ⟨"t1", []⟩ ∧
    (setup "https://base" "t1" emptyCfg s0).1.dashboardUrl = "https://base" ++ "/ab-testing/" ++ "t1" ∧
    alookup "t1" (setup "https://base" "t1" emptyCfg s0).2.activeTests = some emptyCfg ∧
    (setup "https://base" "t1" emptyCfg s0).2.store = s0.store :=
  C4_empty_variants_accepted "https://base" "t1" emptyCfg s0 rfl

/-! ### Claim C5 — persistence at creation -/

/-- C5, counterexample: after `setup` of a valid two-variant config the
store is unchanged — no experiment record with `status = active` (or any
record at all) was created — refuting the claim that `setup` persists
experiment metadata before returning. -/
theorem C5_counterexample :
    (setup "https://base" "t1" twoVarTest s0).2.store = s0.store ∧
    alookup "t1" (setup "https://base" "t1" twoVarTest s0).2.store.tests = none ∧
    (setup "https://base" "t1" twoVarTest s0).2.store.events = [] :=
  ⟨rfl, rfl, rfl⟩

/-- C5 (amended): `setup` never invokes the store's experiment-creation
operation: for every config the external store is unchanged and the
configuration is recorded only in the in-memory registry. -/
theorem C5_setup_does_not_persist
    (baseUrl testId : String) (config : ABTestConfig) (s : EngineState) :
    (setup baseUrl testId config s).2.store = s.store ∧
    (setup baseUrl testId config s).2.activeTests = (testId, config) :: s.activeTests :=
  ⟨rfl, rfl⟩

/-! ### Claim C6 — the confidence formula -/

/-- C6: every result row's confidence equals the specification's
formula — `0` when `visitors < 30`, otherwise
`clamp(0, 99, (1 - 1.96 * sqrt(p * (1-p) / visitors)) * 100)` with `p`
the row's conversion rate; in particular any row with fewer than 30
visitors has confidence `0`. -/
theorem C6_confidence_matches_spec
    (test : ABTestConfig) (events : List ABEvent)
    (r : TestResults) (hr : r ∈ getResults test events) :
    r.confidence = specConfidence r.conversionRate r.visitors ∧
      (r.visitors < 30 → r.confidence = some 0) := by
  have key : ∀ v : ABVariant,
      (variantResult events v).confidence
        = specConfidence (variantResult events v).conversionRate (variantResult events v).visitors
      ∧ ((variantResult events v).visitors < 30 →
          (variantResult events v).confidence = some 0) := by
    intro v
    exact ⟨calculateConfidence_eq_spec _ _, fun h => calculateConfidence_lt30 h⟩
  cases hw : determineWinner (computeResults test events) with
  | none =>
    have hg : getResults test events = computeResults test events := by
      simp only [getResults, hw]
    rw [hg] at hr
    simp only [computeResults] at hr
    obtain ⟨v, hv, rfl⟩ := List.mem_map.mp hr
    exact key v
  | some w =>
    have hg : getResults test events = (computeResults test events).map (markWinner w) := by
      simp only [getResults, hw]
    rw [hg] at hr
    obtain ⟨b, hb, rfl⟩ := List.mem_map.mp hr
    simp only [computeResults] at hb
    obtain ⟨v, hv, rfl⟩ := List.mem_map.mp hb
    simpa only [markWinner_confidence, markWinner_conversionRate, markWinner_visitors]
      using key v

/-- C6, witness: the formula theorem applied to the no-events one-variant
fixture, whose single row has 0 visitors and confidence 0. -/
theorem C6_confidence_matches_spec_witness :
    r0A ∈ getResults oneVarTest [] ∧
    (r0A.confidence = specConfidence r0A.conversionRate r0A.visitors ∧
      (r0A.visitors < 30 → r0A.confidence = some 0)) :=
  have hmem : r0A ∈ getResults oneVarTest [] := by
    rw [getResults_oneVar]
    exact List.mem_singleton.mpr rfl
  ⟨hmem, C6_confidence_matches_spec oneVarTest [] r0A hmem⟩

/-! ### Claim C7 — minimum-sample gate for winner determination -/

/-- C7: if the result list has fewer than two rows or any row has fewer
than 100 visitors, `getResults` declares no winner: every returned row
has `isWinner = false`, regardless of conversion counts and rate gaps. -/
theorem C7_no_winner_under_min_sample
    (test : ABTestConfig) (events : List ABEvent)
    (h : (getResults test events).length < 2 ∨
      ∃ r ∈ getResults test events, r.visitors < 100) :
    ∀ r ∈ getResults test events, r.isWinner = false := by
  cases hw : determineWinner (computeResults test events) with
  | none =>
    have hg : getResults test events = computeResults test events := by
      simp only [getResults, hw]
    rw [hg]
    intro r hr
    simp only [computeResults] at hr
    obtain ⟨v, hv, rfl⟩ := List.mem_map.mp hr
    rfl
  | some w =>
    exfalso
    obtain ⟨hlen, hvis, -⟩ := determineWinner_some hw
    have hg : getResults test events = (computeResults test events).map (markWinner w) := by
      simp only [getResults, hw]
    rcases h with hshort | ⟨r, hr, hrv⟩
    · rw [hg, List.length_map] at hshort
      omega
    · rw [hg] at hr
      obtain ⟨b, hb, rfl⟩ := List.mem_map.mp hr
      rw [markWinner_visitors] at hrv
      exact absurd (hvis b hb) (by omega)

/-- C7, witness: the gate theorem applied to the 50-visitors-per-variant
fixture. -/
theorem C7_no_winner_under_min_sample_witness :
    ((getResults twoVarTest fiftyEvents).length < 2 ∨
      ∃ r ∈ getResults twoVarTest fiftyEvents, r.visitors < 100) ∧
    ∀ r ∈ getResults twoVarTest fiftyEvents, r.isWinner = false :=
  have h : (getResults twoVarTest fiftyEvents).length < 2 ∨
      ∃ r ∈ getResults twoVarTest fiftyEvents, r.visitors < 100 :=
    Or.inr ⟨fiftyA, by rw [getResults_fifty]; exact List.mem_cons_self _ _, by decide⟩
  ⟨h, C7_no_winner_under_min_sample twoVarTest fiftyEvents h⟩

/-! ### Claim C8 — shape and counts of `getResults` -/

/-- C8: for a registered experiment, `getResultsM` succeeds with one row
per declared variant in declaration order; the row of the `i`-th variant
counts its `visit` events as `visitors` and its `conversion` events
(regardless of `metric`) as `conversions`, with
`conversionRate = conversions / visitors` and `0` when `visitors = 0`. -/
theorem C8_getResults_counts
    (s : EngineState) (testId : String) (test : ABTestConfig)
    (i : ℕ) (v : ABVariant)
    (hlook : alookup testId s.activeTests = some test)
    (hv : test.variants[i]? = some v) :
    ∃ rs r, (getResultsM testId s).1 = .ok rs ∧
      rs.length = test.variants.length ∧
      rs[i]? = some r ∧
      r.variantId = v.id ∧
      r.visitors = (((getABTestEvents testId s.store.events).filter
          fun e => decide (e.variantId = v.id)).filter
          fun e => decide (e.eventType = EventType.visit)).length ∧
      r.conversions = (((getABTestEvents testId s.store.events).filter
          fun e => decide (e.variantId = v.id)).filter
          fun e => decide (e.eventType = EventType.conversion)).length ∧
      r.conversionRate
        = (if 0 < r.visitors then (r.conversions : ℚ) / (r.visitors : ℚ) else 0) := by
  have hres : (getResultsM testId s).1
      = .ok (getResults test (getABTestEvents testId s.store.events)) := by
    simp only [getResultsM, hlook]
  cases hw : determineWinner (computeResults test (getABTestEvents testId s.store.events)) with
  | none =>
    have hg : getResults test (getABTestEvents testId s.store.events)
        = computeResults test (getABTestEvents testId s.store.events) := by
      simp only [getResults, hw]
    refine ⟨_, variantResult (getABTestEvents testId s.store.events) v, hres, ?_, ?_,
      rfl, rfl, rfl, rfl⟩
    · rw [hg]
      simp [computeResults]
    · rw [hg]
      simp only [computeResults, List.getElem?_map, hv, Option.map_some']
  | some w =>
    have hg : getResults test (getABTestEvents testId s.store.events)
        = (computeResults test (getABTestEvents testId s.store.events)).map (markWinner w) := by
      simp only [getResults, hw]
    refine ⟨_, markWinner w (variantResult (getABTestEvents testId s.store.events) v),
      hres, ?_, ?_, ?_, ?_, ?_, ?_⟩
    · rw [hg]
      simp [computeResults]
    · rw [hg]
      simp only [computeResults, List.map_map, List.getElem?_map, hv, Option.map_some',
        Function.comp_apply]
    · rw [markWinner_variantId]
      rfl
    · rw [markWinner_visitors]
      rfl
    · rw [markWinner_conversions]
      rfl
    · simp only [markWinner_conversionRate, markWinner_visitors, markWinner_conversions]
      rfl

/-- C8, witness: the counting theorem applied to a registered one-variant
experiment with a single visit in the store. -/
theorem C8_getResults_counts_witness :
    alookup "t1" s8.activeTests = some oneVarTest ∧
    (∃ rs r, (getResultsM "t1" s8).1 = .ok rs ∧
      rs.length = oneVarTest.variants.length ∧
      rs[0]? = some r ∧
      r.variantId = varA.id ∧
      r.visitors = (((getABTestEvents "t1" s8.store.events).filter
          fun e => decide (e.variantId = varA.id)).filter
          fun e => decide (e.eventType = EventType.visit)).length ∧
      r.conversions = (((getABTestEvents "t1" s8.store.events).filter
          fun e => decide (e.variantId = varA.id)).filter
          fun e => decide (e.eventType = EventType.conversion)).length ∧
      r.conversionRate
        = (if 0 < r.visitors then (r.conversions : ℚ) / (r.visitors : ℚ) else 0)) :=
  ⟨rfl, C8_getResults_counts s8 "t1" oneVarTest 0 varA rfl rfl⟩

/-! ### Claim C9 — ending an experiment twice -/

theorem alookup_filter_self (k : String) (l : List (String × ABTestConfig)) :
    alookup k (l.filter fun p => decide (¬ p.1 = k)) = none := by
  induction l with
  | nil => rfl
  | cons p rest ih =>
    by_cases hp : p.1 = k
    · simpa [List.filter_cons, hp] using ih
    · simpa [List.filter_cons, hp, alookup] using ih

theorem endTest_ok_registry {testId : String} {now : ℕ} {s : EngineState}
    {out : Option String × List TestResults} {s' : EngineState}
    (h : endTest testId now s = (.ok out, s')) :
    s'.activeTests = s.activeTests.filter fun p => decide (¬ p.1 = testId) := by
  unfold endTest getResultsM at h
  cases hl : alookup testId s.activeTests with
  | none =>
    rw [hl] at h
    simp at h
  | some test =>
    rw [hl] at h
    dsimp only at h
    split at h
    · simp at h
    · injection h with h1 h2
      rw [← h2]

/-- C9: after a successful `endTest`, a second `endTest` with the same id
fails with the registry's `Test not found` error and leaves the state —
including the persisted `completed` record, winner and end date — fully
unchanged (the failure is raised by the registry lookup before any
write). -/
theorem C9_end_twice_fails
    (s : EngineState) (testId : String) (now₁ now₂ : ℕ)
    (out : Option String × List TestResults) (s' : EngineState)
    (h : endTest testId now₁ s = (.ok out, s')) :
    (endTest testId now₂ s').1 = .error ("Test not found: " ++ testId) ∧
    (endTest testId now₂ s').2 = s' := by
  have hreg := endTest_ok_registry h
  have hnone : alookup testId s'.activeTests = none := by
    rw [hreg]
    exact alookup_filter_self _ _
  unfold endTest getResultsM
  rw [hnone]
  exact ⟨rfl, rfl⟩

/-- C9, witness: ending the registered experiment of `s9` succeeds and
persists the `completed` record; the theorem then applies to the second
call. -/
theorem C9_end_twice_fails_witness :
    endTest "t1" 5 s9 = (.ok (none, [r0A]), s9') ∧
    ((endTest "t1" 7 s9').1 = .error ("Test not found: " ++ "t1") ∧
      (endTest "t1" 7 s9').2 = s9') :=
  have h : endTest "t1" 5 s9 = (.ok (none, [r0A]), s9') := rfl
  ⟨h, C9_end_twice_fails s9 "t1" 5 7 (none, [r0A]) s9' h⟩

/-! ### Claim C10 — range and definedness of the confidence value -/

/-- C10, counterexample: at `conversions = 5 > 3 = visitors` the function
still returns the real number `0`, which lies in `[0, 99]` — refuting
the claim's assertion that for every `conversions > visitors` the
returned value is not a number in `[0, 99]` (the `visitors < 30` branch
returns `0` before the square root is ever evaluated). -/
theorem C10_counterexample :
    3 < 5 ∧ ∃ x : ℝ, calculateConfidence 5 3 = some x ∧ 0 ≤ x ∧ x ≤ 99 :=
  ⟨by norm_num, 0, calculateConfidence_lt30 (by norm_num), le_rfl, by norm_num⟩

/-- C10 (amended): for `conversions ≤ visitors` the confidence is a
well-defined real in `[0, 99]`; the hypothesis is necessary exactly on
the `visitors ≥ 30` branch: for `conversions > visitors ≥ 30` the
radicand is negative, `Math.sqrt` yields `NaN`, and the result is `NaN`
(`none`) — while for `visitors < 30` the function returns `0` without
evaluating the square root. -/
theorem C10_confidence_range :
    (∀ c v : ℕ, c ≤ v → ∃ x : ℝ, calculateConfidence c v = some x ∧ 0 ≤ x ∧ x ≤ 99) ∧
    (∀ c v : ℕ, 30 ≤ v → v < c → calculateConfidence c v = none) := by
  constructor
  · intro c v hcv
    by_cases h : v < 30
    · exact ⟨0, calculateConfidence_lt30 h, le_rfl, by norm_num⟩
    · have hv : (0 : ℝ) < v := Nat.cast_pos.mpr (by omega)
      have hp0 : (0 : ℝ) ≤ (c : ℝ) / (v : ℝ) := div_nonneg (Nat.cast_nonneg c) hv.le
      have hp1 : (c : ℝ) / (v : ℝ) ≤ 1 := by
        rw [div_le_one hv]
        exact_mod_cast hcv
      have hrad : 0 ≤ (c : ℝ) / (v : ℝ) * (1 - (c : ℝ) / (v : ℝ)) / (v : ℝ) :=
        div_nonneg (mul_nonneg hp0 (by linarith)) hv.le
      have heq : calculateConfidence c v
          = some (min 99 (max 0 ((1 - 1.96 *
              Real.sqrt ((c : ℝ) / (v : ℝ) * (1 - (c : ℝ) / (v : ℝ)) / (v : ℝ))) * 100))) := by
        simp only [calculateConfidence, if_neg h, jsSqrt, if_pos hrad]
      exact ⟨_, heq, le_min (by norm_num) (le_max_left _ _), min_le_left _ _⟩
  · intro c v h30 hvc
    have hv : (0 : ℝ) < v := Nat.cast_pos.mpr (by omega)
    have hp : 1 < (c : ℝ) / (v : ℝ) := by
      rw [one_lt_div hv]
      exact_mod_cast hvc
    have hrad : (c : ℝ) / (v : ℝ) * (1 - (c : ℝ) / (v : ℝ)) / (v : ℝ) < 0 :=
      div_neg_of_neg_of_pos (mul_neg_of_pos_of_neg (by linarith) (by linarith)) hv
    simp only [calculateConfidence, if_neg (show ¬ v < 30 by omega), jsSqrt,
      if_neg (not_le.mpr hrad)]

/-- C10, witness: the amended theorem applied at `15 ≤ 40` conversions
per visitors (a defined in-range value) and at `50 > 30` (a `NaN`
result). -/
theorem C10_confidence_range_witness :
    (∃ x : ℝ, calculateConfidence 15 40 = some x ∧ 0 ≤ x ∧ x ≤ 99) ∧
    calculateConfidence 50 30 = none :=
  ⟨C10_confidence_range.1 15 40 (by norm_num),
   C10_confidence_range.2 50 30 (by norm_num) (by norm_num)⟩

end ABTesting
